import Mathlib

/- Verification development for the SPD5118 hwmon driver (spd5118.c).

   The driver is shallowly embedded: the pure helpers (temperature codec,
   vendor-id validation) become Lean functions on Nat/Int with explicit
   two's-complement reductions, and the bus-touching operations become
   explicit state-passing functions over a device/bus state that records a
   trace of lock events and bus transactions issued by each call.  The i2c
   transport is modelled by an SPD5118 device (register file, flat EEPROM
   memory, hardware page register) together with a failure schedule that
   can make any transaction return a transport error. -/

/- ===================== Register map constants (spd5118.c) ================ -/

def SPD5118_REG_TYPE : Nat := 0x00

def SPD5118_REG_REVISION : Nat := 0x02

def SPD5118_REG_VENDOR : Nat := 0x03

def SPD5118_REG_I2C_LEGACY_MODE : Nat := 0x0B

def SPD5118_REG_TEMP_CLR : Nat := 0x13

def SPD5118_REG_TEMP_MAX : Nat := 0x1c

def SPD5118_REG_TEMP_MIN : Nat := 0x1e

def SPD5118_REG_TEMP_CRIT : Nat := 0x20

def SPD5118_REG_TEMP_LCRIT : Nat := 0x22

def SPD5118_REG_TEMP : Nat := 0x31

def SPD5118_REG_TEMP_STATUS : Nat := 0x33

def SPD5118_TEMP_STATUS_HIGH : Nat := 1

def SPD5118_TEMP_STATUS_LOW : Nat := 2

def SPD5118_TEMP_STATUS_CRIT : Nat := 4

def SPD5118_TEMP_STATUS_LCRIT : Nat := 8

def SPD5118_TEMP_CLR_HIGH : Nat := 1

def SPD5118_TEMP_CLR_LOW : Nat := 2

def SPD5118_TEMP_CLR_CRIT : Nat := 4

def SPD5118_TEMP_CLR_LCRIT : Nat := 8

def SPD5118_NUM_PAGES : Nat := 8

def SPD5118_PAGE_SIZE : Nat := 128

def SPD5118_PAGE_SHIFT : Nat := 7

def SPD5118_EEPROM_BASE : Nat := 0x80

def SPD5118_EEPROM_SIZE : Nat := SPD5118_PAGE_SIZE * SPD5118_NUM_PAGES

/-- Temperature unit in millicelsius: 1000 / 4. -/
def SPD5118_TEMP_UNIT : Int := 250

def SPD5118_TEMP_RANGE_MIN : Int := -256000

def SPD5118_TEMP_RANGE_MAX : Int := 255750

/-- Linux errno EINVAL (driver returns its negation). -/
def EINVAL : Int := 22

/-- Linux errno EOPNOTSUPP (driver returns its negation). -/
def EOPNOTSUPP : Int := 95

/- ===================== Temperature codec ================================= -/

/-- Kernel helper sign_extend32(value, index): interpret the low index+1 bits
of value as a two's-complement number whose sign bit is bit `index`. -/
def sign_extend32 (value index : Nat) : Int :=
  let f := value % 2 ^ (index + 1)
  if f < 2 ^ index then (f : Int) else (f : Int) - 2 ^ (index + 1)

/-- C conversion of a signed value into a u16 variable: reduce mod 2^16. -/
def toU16 (v : Int) : Nat := (v.emod 65536).toNat

/-- spd5118_temp_from_reg (spd5118.c:94-98).  The C source assigns the s32
result of sign_extend32(reg >> 2, 11) back into the u16 local `reg`
(truncating it to 16 unsigned bits) and then returns reg * SPD5118_TEMP_UNIT,
where the u16 is promoted to a nonnegative int. -/
def spd5118_temp_from_reg (reg : Nat) : Int :=
  let r : Nat := toU16 (sign_extend32 (reg >>> 2) 11)
  (r : Int) * SPD5118_TEMP_UNIT

/-- Kernel clamp_val(val, lo, hi) = min(max(val, lo), hi). -/
def clamp_val (v lo hi : Int) : Int := min (max v lo) hi

/-- C bitwise AND of a (possibly negative) int with 0x7ff: on two's-complement
representations this is the nonnegative remainder mod 2^11. -/
def maskToBits11 (v : Int) : Nat := (v.emod 2048).toNat

/-- spd5118_temp_to_reg (spd5118.c:100-104): clamp to the representable range,
divide by the unit with C truncating (toward zero) division, mask to 11 bits,
shift left by 2. -/
def spd5118_temp_to_reg (temp : Int) : Nat :=
  let t := clamp_val temp SPD5118_TEMP_RANGE_MIN SPD5118_TEMP_RANGE_MAX
  (maskToBits11 (Int.tdiv t SPD5118_TEMP_UNIT)) <<< 2

/-- Modelled from the spec: the decode semantics the specification describes
for spd5118_temp_from_reg — arithmetic-right-shift by 2, sign-extend the
11-bit field from bit 10, multiply by 250. -/
def spec_temp_from_reg (reg : Nat) : Int :=
  sign_extend32 (reg >>> 2) 10 * SPD5118_TEMP_UNIT

/- ===================== Vendor-id validation ============================== -/

/-- Number of set bits of n, structural in a fuel argument; popCountAux f n is
exact whenever n ≤ f. -/
def popCountAux : Nat → Nat → Nat
  | 0, _ => 0
  | fuel + 1, n => if n = 0 then 0 else n % 2 + popCountAux fuel (n / 2)

/-- Number of set bits of n. -/
def popCount (n : Nat) : Nat := popCountAux n n

/-- GCC __builtin_parity: true iff the number of set bits of n is odd. -/
def builtin_parity (n : Nat) : Bool := decide (popCount n % 2 = 1)

/-- spd5118_vendor_valid (spd5118.c:81-92): both bytes of the 16-bit vendor
word must have odd parity, and the id byte masked to 7 bits must not be 0 or
0x7f. -/
def spd5118_vendor_valid (reg : Nat) : Bool :=
  let pfx := reg &&& 0xff
  let id := reg >>> 8
  if !(builtin_parity pfx) || !(builtin_parity id) then false
  else
    let id2 := id &&& 0x7f
    if id2 = 0 || id2 = 0x7f then false
    else true

/- ===================== Bus / device state model ========================== -/

/-- A bus transaction as issued by the driver. -/
inductive BusTx where
  | writeByte (reg val : Nat)
  | writeWord (reg val : Nat)
  | readByte (reg : Nat)
  | readWord (reg : Nat)
  | blockRead (reg count : Nat)
deriving DecidableEq

/-- An event observable at the device: taking/releasing the per-device mutex,
or a bus transaction. -/
inductive BusEvent where
  | lock
  | unlock
  | tx (t : BusTx)
deriving DecidableEq

/-- The SPD5118 device together with its transport.  `regs` is the register
file, `mem` the flat 1024-byte EEPROM content (a byte per address), `page`
the hardware page-select register (MR11).  `sched` is the transport-failure
schedule: `sched i = some e` makes the i-th transaction fail with error e;
`txIdx` counts transactions issued so far. -/
structure Spd5118Bus where
  regs : Nat → Nat
  mem : Nat → Nat
  page : Nat
  sched : Nat → Option Int
  txIdx : Nat

/-- Per-client driver data (struct spd5118_data): cached current page
(-1 = unknown), vendor id and revision. -/
structure spd5118_data where
  current_page : Int
  vendor : Nat
  revision : Nat

/-- Full state threaded through the embedded driver code: device+transport,
driver data, and the observable event trace. -/
structure DrvState where
  bus : Spd5118Bus
  data : spd5118_data
  trace : List BusEvent

/-- i2c_smbus_write_byte_data: issue a byte write; on success (no scheduled
failure) the register file is updated, and a write to the page-select
register also moves the hardware page. -/
def i2c_smbus_write_byte_data (s : DrvState) (reg val : Nat) : Int × DrvState :=
  let s₁ : DrvState := { s with trace := s.trace ++ [BusEvent.tx (BusTx.writeByte reg val)] }
  match s.bus.sched s.bus.txIdx with
  | some e => (e, { s₁ with bus := { s₁.bus with txIdx := s₁.bus.txIdx + 1 } })
  | none =>
      (0, { s₁ with bus := { s₁.bus with
              txIdx := s₁.bus.txIdx + 1
              page := if reg = SPD5118_REG_I2C_LEGACY_MODE then val else s₁.bus.page
              regs := fun r => if r = reg then val else s₁.bus.regs r } })

/-- i2c_smbus_write_word_data: issue a word write to a register. -/
def i2c_smbus_write_word_data (s : DrvState) (reg val : Nat) : Int × DrvState :=
  let s₁ : DrvState := { s with trace := s.trace ++ [BusEvent.tx (BusTx.writeWord reg val)] }
  match s.bus.sched s.bus.txIdx with
  | some e => (e, { s₁ with bus := { s₁.bus with txIdx := s₁.bus.txIdx + 1 } })
  | none =>
      (0, { s₁ with bus := { s₁.bus with
              txIdx := s₁.bus.txIdx + 1
              regs := fun r => if r = reg then val else s₁.bus.regs r } })

/-- i2c_smbus_read_word_data: read a word register, or fail per schedule. -/
def i2c_smbus_read_word_data (s : DrvState) (reg : Nat) : Int × DrvState :=
  let s₁ : DrvState := { s with trace := s.trace ++ [BusEvent.tx (BusTx.readWord reg)] }
  let s₂ : DrvState := { s₁ with bus := { s₁.bus with txIdx := s₁.bus.txIdx + 1 } }
  match s.bus.sched s.bus.txIdx with
  | some e => (e, s₂)
  | none => ((s.bus.regs reg : Int), s₂)

/-- i2c_smbus_read_byte_data: read a byte register, or fail per schedule. -/
def i2c_smbus_read_byte_data (s : DrvState) (reg : Nat) : Int × DrvState :=
  let s₁ : DrvState := { s with trace := s.trace ++ [BusEvent.tx (BusTx.readByte reg)] }
  let s₂ : DrvState := { s₁ with bus := { s₁.bus with txIdx := s₁.bus.txIdx + 1 } }
  match s.bus.sched s.bus.txIdx with
  | some e => (e, s₂)
  | none => ((s.bus.regs reg : Int), s₂)

/-- i2c_smbus_read_i2c_block_data_or_emulated: block read of `count` bytes at
register address `reg`.  The device exposes the 128-byte window
[0x80, 0x100) onto page `page` of the flat EEPROM memory; addresses wrap
inside the window, so a read that crossed the window boundary would not see
the next page's data. -/
def i2c_smbus_read_i2c_block_data_or_emulated (s : DrvState) (reg count : Nat) :
    Int × List Nat × DrvState :=
  let s₁ : DrvState := { s with trace := s.trace ++ [BusEvent.tx (BusTx.blockRead reg count)] }
  let s₂ : DrvState := { s₁ with bus := { s₁.bus with txIdx := s₁.bus.txIdx + 1 } }
  match s.bus.sched s.bus.txIdx with
  | some e => (e, [], s₂)
  | none =>
      ((count : Int),
       (List.range count).map
         (fun i => s.bus.mem (s.bus.page * SPD5118_PAGE_SIZE +
           (reg - SPD5118_EEPROM_BASE + i) % SPD5118_PAGE_SIZE)),
       s₂)

/- ===================== Driver operations ================================= -/

/-- spd5118_set_current_page (spd5118.c:351-370). -/
def spd5118_set_current_page (s : DrvState) (page : Nat) : Int × DrvState :=
  if (page : Int) = s.data.current_page then (0, s)
  else
    let r := i2c_smbus_write_byte_data s SPD5118_REG_I2C_LEGACY_MODE page
    if r.1 < 0 then r
    else (0, { r.2 with data := { r.2.data with current_page := (page : Int) } })

/-- spd5118_eeprom_read (spd5118.c:372-389): select the page of `offset`,
clamp the count so the block read cannot cross the 128-byte page boundary,
then issue one block read inside the page window. -/
def spd5118_eeprom_read (s : DrvState) (offset count : Nat) : Int × List Nat × DrvState :=
  let page := offset >>> SPD5118_PAGE_SHIFT
  let intra := offset &&& ((1 <<< SPD5118_PAGE_SHIFT) - 1)
  let r := spd5118_set_current_page s page
  if r.1 ≠ 0 then (r.1, [], r.2)
  else
    let count2 := if intra + count > SPD5118_PAGE_SIZE then SPD5118_PAGE_SIZE - intra else count
    i2c_smbus_read_i2c_block_data_or_emulated r.2 (SPD5118_EEPROM_BASE + intra) count2

/-- Loop body of eeprom_read (spd5118.c:403-411), with fuel for termination;
fuel ≥ count suffices because every successful chunk transfers at least one
byte.  Accumulates the transferred bytes in `acc`. -/
def eeprom_read_loop (s : DrvState) (off count fuel : Nat) (acc : List Nat) :
    Int × List Nat × DrvState :=
  match fuel with
  | 0 => (0, acc, s)
  | fuel + 1 =>
      if count = 0 then (0, acc, s)
      else
        let r := spd5118_eeprom_read s off count
        if r.1 < 0 then (r.1, acc, r.2.2)
        else eeprom_read_loop r.2.2 (off + r.1.toNat) (count - r.1.toNat) fuel (acc ++ r.2.1)

/-- eeprom_read (spd5118.c:391-417): under the device mutex, loop the per-page
primitive until the request is satisfied or a transport error occurs; on
error return the error, otherwise return the full requested count. -/
def eeprom_read (s : DrvState) (off count : Nat) : Int × List Nat × DrvState :=
  let s₁ : DrvState := { s with trace := s.trace ++ [BusEvent.lock] }
  let r := eeprom_read_loop s₁ off count count []
  let s₂ : DrvState := { r.2.2 with trace := r.2.2.trace ++ [BusEvent.unlock] }
  (if r.1 < 0 then r.1 else (count : Int), r.2.1, s₂)

/- ===================== Attribute / alarm surface ========================= -/

/-- The hwmon temperature-channel attributes handled by the driver; `unsupported`
stands for every other attribute value (the switch default cases). -/
inductive HwmonTempAttr where
  | input
  | max
  | min
  | crit
  | lcrit
  | max_alarm
  | min_alarm
  | crit_alarm
  | lcrit_alarm
  | unsupported
deriving DecidableEq

/-- The hwmon sensor type: the driver only handles hwmon_temp. -/
inductive HwmonSensorType where
  | temp
  | notTemp
deriving DecidableEq

/-- The two module parameters gating writes (spd5118.c:64-70). -/
structure ModuleParams where
  enable_temp_write : Bool
  enable_alarm_write : Bool

/-- Register selected by the switch in spd5118_read_temp (spd5118.c:111-129). -/
def readTempReg : HwmonTempAttr → Option Nat
  | HwmonTempAttr.input => some SPD5118_REG_TEMP
  | HwmonTempAttr.max => some SPD5118_REG_TEMP_MAX
  | HwmonTempAttr.min => some SPD5118_REG_TEMP_MIN
  | HwmonTempAttr.crit => some SPD5118_REG_TEMP_CRIT
  | HwmonTempAttr.lcrit => some SPD5118_REG_TEMP_LCRIT
  | _ => none

/-- Register selected by the switch in spd5118_write_temp (spd5118.c:150-165). -/
def writeTempReg : HwmonTempAttr → Option Nat
  | HwmonTempAttr.max => some SPD5118_REG_TEMP_MAX
  | HwmonTempAttr.min => some SPD5118_REG_TEMP_MIN
  | HwmonTempAttr.crit => some SPD5118_REG_TEMP_CRIT
  | HwmonTempAttr.lcrit => some SPD5118_REG_TEMP_LCRIT
  | _ => none

/-- Status mask selected by the switch in spd5118_read_alarm (spd5118.c:179-194). -/
def alarmStatusMask : HwmonTempAttr → Option Nat
  | HwmonTempAttr.max_alarm => some SPD5118_TEMP_STATUS_HIGH
  | HwmonTempAttr.min_alarm => some SPD5118_TEMP_STATUS_LOW
  | HwmonTempAttr.crit_alarm => some SPD5118_TEMP_STATUS_CRIT
  | HwmonTempAttr.lcrit_alarm => some SPD5118_TEMP_STATUS_LCRIT
  | _ => none

/-- Clear-register value selected by the switch in spd5118_clear_alarm
(spd5118.c:214-229). -/
def alarmClrBit : HwmonTempAttr → Option Nat
  | HwmonTempAttr.max_alarm => some SPD5118_TEMP_CLR_HIGH
  | HwmonTempAttr.min_alarm => some SPD5118_TEMP_CLR_LOW
  | HwmonTempAttr.crit_alarm => some SPD5118_TEMP_CLR_CRIT
  | HwmonTempAttr.lcrit_alarm => some SPD5118_TEMP_CLR_LCRIT
  | _ => none

/-- C conversion of a long value into an int parameter: two's-complement
truncation to 32 bits. -/
def int_of_long (v : Int) : Int :=
  let m := v.emod (2 ^ 32)
  if m < 2 ^ 31 then m else m - 2 ^ 32

/-- spd5118_read_temp (spd5118.c:106-139).  Returns (ret, decoded value,
state); the value is meaningful only when ret = 0. -/
def spd5118_read_temp (s : DrvState) (attr : HwmonTempAttr) : Int × Int × DrvState :=
  match readTempReg attr with
  | none => (-EOPNOTSUPP, 0, s)
  | some reg =>
      let s₁ : DrvState := { s with trace := s.trace ++ [BusEvent.lock] }
      let r := i2c_smbus_read_word_data s₁ reg
      let s₂ : DrvState := { r.2 with trace := r.2.trace ++ [BusEvent.unlock] }
      if r.1 < 0 then (r.1, 0, s₂)
      else (0, spd5118_temp_from_reg r.1.toNat, s₂)

/-- spd5118_write_temp (spd5118.c:141-172): gated by enable_temp_write before
anything else; the long value is truncated into the int parameter of
spd5118_temp_to_reg. -/
def spd5118_write_temp (p : ModuleParams) (s : DrvState) (attr : HwmonTempAttr) (val : Int) :
    Int × DrvState :=
  if !p.enable_temp_write then (-EOPNOTSUPP, s)
  else
    match writeTempReg attr with
    | none => (-EOPNOTSUPP, s)
    | some reg =>
        let regval := spd5118_temp_to_reg (int_of_long val)
        let s₁ : DrvState := { s with trace := s.trace ++ [BusEvent.lock] }
        let r := i2c_smbus_write_word_data s₁ reg regval
        (r.1, { r.2 with trace := r.2.trace ++ [BusEvent.unlock] })

/-- spd5118_read_alarm (spd5118.c:174-203). -/
def spd5118_read_alarm (s : DrvState) (attr : HwmonTempAttr) : Int × Int × DrvState :=
  match alarmStatusMask attr with
  | none => (-EOPNOTSUPP, 0, s)
  | some mask =>
      let s₁ : DrvState := { s with trace := s.trace ++ [BusEvent.lock] }
      let r := i2c_smbus_read_byte_data s₁ SPD5118_REG_TEMP_STATUS
      let s₂ : DrvState := { r.2 with trace := r.2.trace ++ [BusEvent.unlock] }
      if r.1 < 0 then (r.1, 0, s₂)
      else (0, if r.1.toNat &&& mask ≠ 0 then 1 else 0, s₂)

/-- spd5118_clear_alarm (spd5118.c:205-235): gated by enable_alarm_write, then
exactly one byte write of the alarm's clear bit to SPD5118_REG_TEMP_CLR. -/
def spd5118_clear_alarm (p : ModuleParams) (s : DrvState) (attr : HwmonTempAttr) :
    Int × DrvState :=
  if !p.enable_alarm_write then (-EOPNOTSUPP, s)
  else
    match alarmClrBit attr with
    | none => (-EOPNOTSUPP, s)
    | some regval =>
        let s₁ : DrvState := { s with trace := s.trace ++ [BusEvent.lock] }
        let r := i2c_smbus_write_byte_data s₁ SPD5118_REG_TEMP_CLR regval
        (r.1, { r.2 with trace := r.2.trace ++ [BusEvent.unlock] })

/-- spd5118_write (spd5118.c:262-286): the hwmon write entry point.  Alarm
attributes reject any nonzero value with -EINVAL before the alarm-write
gate is consulted. -/
def spd5118_write (p : ModuleParams) (s : DrvState) (type : HwmonSensorType)
    (attr : HwmonTempAttr) (val : Int) : Int × DrvState :=
  if type ≠ HwmonSensorType.temp then (-EOPNOTSUPP, s)
  else
    match attr with
    | HwmonTempAttr.max | HwmonTempAttr.min | HwmonTempAttr.crit | HwmonTempAttr.lcrit =>
        spd5118_write_temp p s attr val
    | HwmonTempAttr.max_alarm | HwmonTempAttr.min_alarm
    | HwmonTempAttr.crit_alarm | HwmonTempAttr.lcrit_alarm =>
        if val ≠ 0 then (-EINVAL, s)
        else spd5118_clear_alarm p s attr
    | _ => (-EOPNOTSUPP, s)

/- ===================== Specification-side predicates ===================== -/

/-- Property of one trace event: a block read stays inside the 128-byte page
window (it never crosses a page boundary); every other event is fine. -/
def txInPage : BusEvent → Prop
  | BusEvent.tx (BusTx.blockRead reg cnt) =>
      SPD5118_EEPROM_BASE ≤ reg ∧ reg + cnt ≤ SPD5118_EEPROM_BASE + SPD5118_PAGE_SIZE
  | _ => True

/-- The cached page is unknown (-1) or agrees with the hardware page. -/
def PageSync (s : DrvState) : Prop :=
  s.data.current_page = -1 ∨ s.data.current_page = (s.bus.page : Int)

/-- The failure schedule only produces negative (errno-style) codes. -/
def SchedErrs (sched : Nat → Option Int) : Prop :=
  ∀ i e, sched i = some e → e < 0

/-- The failure schedule never fails a transaction. -/
def NoFail (sched : Nat → Option Int) : Prop :=
  ∀ i, sched i = none

/-- A call's trace extension is either empty (the bus is never touched) or
one mutex acquire, then bus transactions only, then one mutex release. -/
def LockBracketed (old new : List BusEvent) : Prop :=
  new = old ∨ ∃ txs : List BusTx,
    new = old ++ [BusEvent.lock] ++ txs.map BusEvent.tx ++ [BusEvent.unlock]

/-- An alarm attribute of the hwmon temperature channel. -/
def isAlarmAttr (attr : HwmonTempAttr) : Prop :=
  attr = HwmonTempAttr.max_alarm ∨ attr = HwmonTempAttr.min_alarm ∨
  attr = HwmonTempAttr.crit_alarm ∨ attr = HwmonTempAttr.lcrit_alarm

/- ===================== Concrete states for witnesses ===================== -/

/-- A fault-free demo bus: EEPROM byte a holds a % 256, all registers 0,
hardware page 0. -/
def demoBus : Spd5118Bus :=
  { regs := fun _ => 0
    mem := fun a => a % 256
    page := 0
    sched := fun _ => none
    txIdx := 0 }

/-- Freshly probed driver state: current_page unknown, empty trace. -/
def demoState : DrvState :=
  { bus := demoBus
    data := { current_page := -1, vendor := 0x0101, revision := 0 }
    trace := [] }

/-- Driver state whose cached page 3 agrees with the hardware page. -/
def demoStateP3 : DrvState :=
  { bus := { demoBus with page := 3 }
    data := { current_page := 3, vendor := 0x0101, revision := 0 }
    trace := [] }

/-- Driver state whose transport fails every transaction with -5 (-EIO). -/
def demoStateFail : DrvState :=
  { bus := { demoBus with sched := fun _ => some (-5) }
    data := { current_page := -1, vendor := 0x0101, revision := 0 }
    trace := [] }

/- ===================== Arithmetic helper lemmas ========================== -/

theorem and_mask_255 (n : Nat) : n &&& 255 = n % 256 := by
  have h := Nat.and_pow_two_sub_one_eq_mod n 8
  norm_num at h
  exact h

theorem and_mask_127 (n : Nat) : n &&& 127 = n % 128 := by
  have h := Nat.and_pow_two_sub_one_eq_mod n 7
  norm_num at h
  exact h

theorem shiftRight7_eq (n : Nat) : n >>> 7 = n / 128 := by
  rw [Nat.shiftRight_eq_div_pow]

theorem shiftRight8_eq (n : Nat) : n >>> 8 = n / 256 := by
  rw [Nat.shiftRight_eq_div_pow]

/- ===================== C1 ================================================ -/

/-- C1: the claim says spd5118_temp_from_reg always lands in
[-256000, 255750].  The code refutes it: sign_extend32 is called with sign
bit index 11 (a 12-bit field) and its signed result is truncated back into
the u16 variable, so decode(0x1000) = 256000 > SPD5118_TEMP_RANGE_MAX, and
decode(0x2004) = 15872250 because the negative intermediate -2047 is
reinterpreted as the u16 63489. -/
theorem spd5118_temp_from_reg_breaks_range :
    spd5118_temp_from_reg 0x1000 = 256000 ∧
    SPD5118_TEMP_RANGE_MAX < spd5118_temp_from_reg 0x1000 ∧
    spd5118_temp_from_reg 0x2004 = 15872250 ∧
    spec_temp_from_reg 0x1000 = -256000 ∧
    spd5118_temp_from_reg 0x1000 ≠ spec_temp_from_reg 0x1000 := by
  decide

/- ===================== C2 ================================================ -/

/-- C2: the claim says encode(decode(r)) preserves the 11-bit field of r for
every 16-bit r.  The code refutes it at r = 0x1000: decode yields 256000
(out of range, see C1), encode clamps that to 255750, and the round-tripped
field is 1023 while the original field is 1024. -/
theorem spd5118_temp_roundtrip_breaks :
    (spd5118_temp_to_reg (spd5118_temp_from_reg 0x1000) >>> 2) &&& 0x7ff = 1023 ∧
    (0x1000 >>> 2) &&& 0x7ff = 1024 ∧
    (spd5118_temp_to_reg (spd5118_temp_from_reg 0x1000) >>> 2) &&& 0x7ff ≠
      (0x1000 >>> 2) &&& 0x7ff := by
  decide

/- ===================== C7 ================================================ -/

/-- C7: spd5118_temp_to_reg clamps its input to
[SPD5118_TEMP_RANGE_MIN, SPD5118_TEMP_RANGE_MAX] before converting, so every
input below the range encodes like -256000 and every input above encodes
like 255750. -/
theorem spd5118_temp_to_reg_clamps (x : Int) :
    spd5118_temp_to_reg x =
      spd5118_temp_to_reg (clamp_val x SPD5118_TEMP_RANGE_MIN SPD5118_TEMP_RANGE_MAX) ∧
    (x < SPD5118_TEMP_RANGE_MIN →
      spd5118_temp_to_reg x = spd5118_temp_to_reg SPD5118_TEMP_RANGE_MIN) ∧
    (SPD5118_TEMP_RANGE_MAX < x →
      spd5118_temp_to_reg x = spd5118_temp_to_reg SPD5118_TEMP_RANGE_MAX) := by
  have key : ∀ y z : Int,
      clamp_val y SPD5118_TEMP_RANGE_MIN SPD5118_TEMP_RANGE_MAX =
        clamp_val z SPD5118_TEMP_RANGE_MIN SPD5118_TEMP_RANGE_MAX →
      spd5118_temp_to_reg y = spd5118_temp_to_reg z := by
    intro y z h
    unfold spd5118_temp_to_reg
    rw [h]
  refine ⟨key _ _ ?_, fun h => key _ _ ?_, fun h => key _ _ ?_⟩ <;>
    simp only [clamp_val, SPD5118_TEMP_RANGE_MIN, SPD5118_TEMP_RANGE_MAX] at * <;> omega

/-- Witness for C7 at inputs outside the range on both sides. -/
theorem spd5118_temp_to_reg_clamps_witness :
    ((-300000 : Int) < SPD5118_TEMP_RANGE_MIN ∧
      spd5118_temp_to_reg (-300000) = spd5118_temp_to_reg SPD5118_TEMP_RANGE_MIN) ∧
    (SPD5118_TEMP_RANGE_MAX < (300000 : Int) ∧
      spd5118_temp_to_reg 300000 = spd5118_temp_to_reg SPD5118_TEMP_RANGE_MAX) :=
  ⟨⟨by decide, (spd5118_temp_to_reg_clamps (-300000)).2.1 (by decide)⟩,
   ⟨by decide, (spd5118_temp_to_reg_clamps 300000).2.2 (by decide)⟩⟩

/- ===================== C8 ================================================ -/

/-- C8: spd5118_vendor_valid accepts a 16-bit vendor word exactly when both
bytes have an odd number of set bits and the id byte masked to 7 bits lies
in [1, 126]; in particular it rejects whenever either byte has even parity
or the masked id is 0 or 127. -/
theorem spd5118_vendor_valid_iff (r : Nat) (_h : r < 65536) :
    spd5118_vendor_valid r = true ↔
      (Odd (popCount (r % 256)) ∧ Odd (popCount (r / 256)) ∧
       1 ≤ r / 256 % 128 ∧ r / 256 % 128 ≤ 126) := by
  have e1 := and_mask_255 r
  have e2 := shiftRight8_eq r
  have e3 := and_mask_127 (r / 256)
  have hlt : r / 256 % 128 < 128 := Nat.mod_lt _ (by norm_num)
  simp only [spd5118_vendor_valid, e1, e2, e3, builtin_parity, Nat.odd_iff]
  by_cases h1 : popCount (r % 256) % 2 = 1 <;>
    by_cases h2 : popCount (r / 256) % 2 = 1 <;>
      simp [h1, h2] <;> omega

/-- Witness for C8 at the valid vendor word 0x0101. -/
theorem spd5118_vendor_valid_iff_witness :
    257 < 65536 ∧
    (spd5118_vendor_valid 257 = true ↔
      (Odd (popCount (257 % 256)) ∧ Odd (popCount (257 / 256)) ∧
       1 ≤ 257 / 256 % 128 ∧ 257 / 256 % 128 ≤ 126)) :=
  ⟨by norm_num, spd5118_vendor_valid_iff 257 (by norm_num)⟩

/- ===================== C5 ================================================ -/

/-- C5: writing an alarm attribute with a nonzero value fails with -EINVAL and
leaves the state (hence the bus) untouched; writing 0 with alarm-write
enabled succeeds and issues exactly one byte write to the clear register
SPD5118_REG_TEMP_CLR whose value is that alarm's single status bit. -/
theorem spd5118_write_alarm_contract (p : ModuleParams) (s : DrvState)
    (attr : HwmonTempAttr) (val : Int) (ha : isAlarmAttr attr) :
    (val ≠ 0 → spd5118_write p s HwmonSensorType.temp attr val = (-EINVAL, s)) ∧
    (p.enable_alarm_write = true → s.bus.sched s.bus.txIdx = none →
      ∃ b, alarmClrBit attr = some b ∧ alarmStatusMask attr = some b ∧ popCount b = 1 ∧
        (spd5118_write p s HwmonSensorType.temp attr 0).1 = 0 ∧
        (spd5118_write p s HwmonSensorType.temp attr 0).2.trace =
          s.trace ++ [BusEvent.lock,
            BusEvent.tx (BusTx.writeByte SPD5118_REG_TEMP_CLR b),
            BusEvent.unlock]) := by
  constructor
  · intro hv
    rcases ha with h | h | h | h <;> subst h <;> simp [spd5118_write, hv]
  · intro hen hsched
    rcases ha with h | h | h | h <;> subst h <;>
      refine ⟨_, rfl, rfl, by decide, ?_⟩ <;>
        simp [spd5118_write, spd5118_clear_alarm, i2c_smbus_write_byte_data, hen, hsched,
          alarmClrBit]

/-- Witness for C5 at attr = max_alarm: nonzero write rejected, zero write
issues exactly the single clear-bit transaction. -/
theorem spd5118_write_alarm_contract_witness :
    isAlarmAttr HwmonTempAttr.max_alarm ∧
    spd5118_write ⟨false, true⟩ demoState HwmonSensorType.temp HwmonTempAttr.max_alarm 5 =
      (-EINVAL, demoState) ∧
    (∃ b, alarmClrBit HwmonTempAttr.max_alarm = some b ∧
      alarmStatusMask HwmonTempAttr.max_alarm = some b ∧ popCount b = 1 ∧
      (spd5118_write ⟨false, true⟩ demoState HwmonSensorType.temp HwmonTempAttr.max_alarm 0).1 = 0 ∧
      (spd5118_write ⟨false, true⟩ demoState HwmonSensorType.temp HwmonTempAttr.max_alarm 0).2.trace =
        demoState.trace ++ [BusEvent.lock,
          BusEvent.tx (BusTx.writeByte SPD5118_REG_TEMP_CLR b),
          BusEvent.unlock]) := by
  refine ⟨Or.inl rfl, ?_, ?_⟩
  · exact (spd5118_write_alarm_contract ⟨false, true⟩ demoState HwmonTempAttr.max_alarm 5
      (Or.inl rfl)).1 (by decide)
  · exact (spd5118_write_alarm_contract ⟨false, true⟩ demoState HwmonTempAttr.max_alarm 0
      (Or.inl rfl)).2 rfl rfl

/- ===================== C6 ================================================ -/

/-- C6: with enable_temp_write disabled, every threshold write (max, min,
crit, lcrit) returns -EOPNOTSUPP and leaves the state unchanged, so no bus
transaction is issued. -/
theorem spd5118_write_temp_gated (p : ModuleParams) (s : DrvState)
    (attr : HwmonTempAttr) (val : Int) (hp : p.enable_temp_write = false)
    (ha : attr = HwmonTempAttr.max ∨ attr = HwmonTempAttr.min ∨
      attr = HwmonTempAttr.crit ∨ attr = HwmonTempAttr.lcrit) :
    spd5118_write p s HwmonSensorType.temp attr val = (-EOPNOTSUPP, s) := by
  rcases ha with h | h | h | h <;> subst h <;>
    simp [spd5118_write, spd5118_write_temp, hp]

/-- Witness for C6 at attr = crit. -/
theorem spd5118_write_temp_gated_witness :
    (false = false) ∧
    spd5118_write ⟨false, true⟩ demoState HwmonSensorType.temp HwmonTempAttr.crit 1000 =
      (-EOPNOTSUPP, demoState) :=
  ⟨rfl, spd5118_write_temp_gated ⟨false, true⟩ demoState HwmonTempAttr.crit 1000 rfl
    (Or.inr (Or.inr (Or.inl rfl)))⟩

/- ===================== C10 =============================================== -/

/-- C10: a nonzero alarm write returns -EINVAL with the state unchanged (no
bus transaction) even when enable_alarm_write is false: the value check in
spd5118_write precedes the gate check in spd5118_clear_alarm, so the result
is -EINVAL, not -EOPNOTSUPP. -/
theorem spd5118_write_alarm_einval_precedence (p : ModuleParams) (s : DrvState)
    (attr : HwmonTempAttr) (val : Int) (ha : isAlarmAttr attr) (hv : val ≠ 0)
    (_hp : p.enable_alarm_write = false) :
    spd5118_write p s HwmonSensorType.temp attr val = (-EINVAL, s) ∧
    spd5118_write p s HwmonSensorType.temp attr val ≠ (-EOPNOTSUPP, s) := by
  have h1 : spd5118_write p s HwmonSensorType.temp attr val = (-EINVAL, s) := by
    rcases ha with h | h | h | h <;> subst h <;> simp [spd5118_write, hv]
  refine ⟨h1, ?_⟩
  rw [h1]
  intro hcontra
  have := congrArg Prod.fst hcontra
  simp [EINVAL, EOPNOTSUPP] at this

/-- Witness for C10 with both write-enable flags disabled. -/
theorem spd5118_write_alarm_einval_precedence_witness :
    isAlarmAttr HwmonTempAttr.min_alarm ∧
    spd5118_write ⟨false, false⟩ demoState HwmonSensorType.temp HwmonTempAttr.min_alarm 1 =
      (-EINVAL, demoState) ∧
    spd5118_write ⟨false, false⟩ demoState HwmonSensorType.temp HwmonTempAttr.min_alarm 1 ≠
      (-EOPNOTSUPP, demoState) :=
  ⟨Or.inr (Or.inl rfl),
   (spd5118_write_alarm_einval_precedence ⟨false, false⟩ demoState HwmonTempAttr.min_alarm 1
     (Or.inr (Or.inl rfl)) (by decide) rfl).1,
   (spd5118_write_alarm_einval_precedence ⟨false, false⟩ demoState HwmonTempAttr.min_alarm 1
     (Or.inr (Or.inl rfl)) (by decide) rfl).2⟩

/- ===================== C4 ================================================ -/

/-- C4: page-select protocol.  If the requested page equals the cached
current_page, spd5118_set_current_page issues nothing and succeeds; if it
differs and the select write succeeds, current_page is updated and exactly
one page-select write is issued; if the select write fails, the error is
returned and current_page is unchanged.  Moreover, for an EEPROM read
request the trace shows no page-select transaction when the page matches,
and exactly one page-select write immediately preceding the data read when
it differs. -/
theorem spd5118_page_select_contract (s : DrvState) (page : Nat) :
    ((page : Int) = s.data.current_page → spd5118_set_current_page s page = (0, s)) ∧
    ((page : Int) ≠ s.data.current_page → s.bus.sched s.bus.txIdx = none →
      (spd5118_set_current_page s page).1 = 0 ∧
      (spd5118_set_current_page s page).2.data.current_page = (page : Int) ∧
      (spd5118_set_current_page s page).2.trace =
        s.trace ++ [BusEvent.tx (BusTx.writeByte SPD5118_REG_I2C_LEGACY_MODE page)]) ∧
    (∀ e, (page : Int) ≠ s.data.current_page → s.bus.sched s.bus.txIdx = some e → e < 0 →
      (spd5118_set_current_page s page).1 = e ∧
      (spd5118_set_current_page s page).2.data.current_page = s.data.current_page ∧
      (spd5118_set_current_page s page).2.trace =
        s.trace ++ [BusEvent.tx (BusTx.writeByte SPD5118_REG_I2C_LEGACY_MODE page)]) ∧
    (∀ offset count, ((offset >>> 7 : Nat) : Int) = s.data.current_page →
      ∃ c, (spd5118_eeprom_read s offset count).2.2.trace =
        s.trace ++ [BusEvent.tx (BusTx.blockRead (SPD5118_EEPROM_BASE + (offset &&& 127)) c)]) ∧
    (∀ offset count, ((offset >>> 7 : Nat) : Int) ≠ s.data.current_page →
      s.bus.sched s.bus.txIdx = none →
      ∃ c, (spd5118_eeprom_read s offset count).2.2.trace =
        s.trace ++ [BusEvent.tx (BusTx.writeByte SPD5118_REG_I2C_LEGACY_MODE (offset >>> 7)),
          BusEvent.tx (BusTx.blockRead (SPD5118_EEPROM_BASE + (offset &&& 127)) c)]) := by
  refine ⟨?_, ?_, ?_, ?_, ?_⟩
  · intro h
    simp [spd5118_set_current_page, h]
  · intro h hs
    simp [spd5118_set_current_page, h, i2c_smbus_write_byte_data, hs]
  · intro e h hs he
    simp [spd5118_set_current_page, h, i2c_smbus_write_byte_data, hs, he]
  · intro offset count hpage
    refine ⟨if (offset &&& 127) + count > SPD5118_PAGE_SIZE
      then SPD5118_PAGE_SIZE - (offset &&& 127) else count, ?_⟩
    cases hbr : s.bus.sched s.bus.txIdx <;>
      simp [spd5118_eeprom_read, spd5118_set_current_page, SPD5118_PAGE_SHIFT, hpage,
        i2c_smbus_read_i2c_block_data_or_emulated, hbr]
  · intro offset count hpage hs
    refine ⟨if (offset &&& 127) + count > SPD5118_PAGE_SIZE
      then SPD5118_PAGE_SIZE - (offset &&& 127) else count, ?_⟩
    cases hbr : s.bus.sched (s.bus.txIdx + 1) <;>
      simp [spd5118_eeprom_read, spd5118_set_current_page, SPD5118_PAGE_SHIFT, hpage, hs,
        i2c_smbus_write_byte_data, i2c_smbus_read_i2c_block_data_or_emulated, hbr]

/-- Witness for C4 exercising all branches on concrete states. -/
theorem spd5118_page_select_contract_witness :
    spd5118_set_current_page demoStateP3 3 = (0, demoStateP3) ∧
    ((spd5118_set_current_page demoState 5).1 = 0 ∧
      (spd5118_set_current_page demoState 5).2.data.current_page = (5 : Int) ∧
      (spd5118_set_current_page demoState 5).2.trace =
        demoState.trace ++ [BusEvent.tx (BusTx.writeByte SPD5118_REG_I2C_LEGACY_MODE 5)]) ∧
    ((spd5118_set_current_page demoStateFail 5).1 = -5 ∧
      (spd5118_set_current_page demoStateFail 5).2.data.current_page =
        demoStateFail.data.current_page ∧
      (spd5118_set_current_page demoStateFail 5).2.trace =
        demoStateFail.trace ++ [BusEvent.tx (BusTx.writeByte SPD5118_REG_I2C_LEGACY_MODE 5)]) ∧
    (∃ c, (spd5118_eeprom_read demoStateP3 394 20).2.2.trace =
      demoStateP3.trace ++
        [BusEvent.tx (BusTx.blockRead (SPD5118_EEPROM_BASE + (394 &&& 127)) c)]) ∧
    (∃ c, (spd5118_eeprom_read demoState 394 20).2.2.trace =
      demoState.trace ++
        [BusEvent.tx (BusTx.writeByte SPD5118_REG_I2C_LEGACY_MODE (394 >>> 7)),
         BusEvent.tx (BusTx.blockRead (SPD5118_EEPROM_BASE + (394 &&& 127)) c)]) :=
  ⟨(spd5118_page_select_contract demoStateP3 3).1 (by decide),
   (spd5118_page_select_contract demoState 5).2.1 (by decide) rfl,
   (spd5118_page_select_contract demoStateFail 5).2.2.1 (-5) (by decide) rfl (by decide),
   (spd5118_page_select_contract demoStateP3 0).2.2.2.1 394 20 (by decide),
   (spd5118_page_select_contract demoState 0).2.2.2.2 394 20 (by decide) rfl⟩

/- ===================== Loop machinery for C3 / C9 ======================== -/

/-- A list of events that are all bus transactions is the image of a list of
transactions. -/
theorem events_all_tx : ∀ evs : List BusEvent,
    (∀ ev ∈ evs, ∃ t, ev = BusEvent.tx t) →
    ∃ txs : List BusTx, evs = txs.map BusEvent.tx := by
  intro evs
  induction evs with
  | nil => exact fun _ => ⟨[], rfl⟩
  | cons ev rest ih =>
      intro h
      obtain ⟨t, ht⟩ := h ev (List.mem_cons_self ev rest)
      obtain ⟨txs, htxs⟩ := ih fun x hx => h x (List.mem_cons_of_mem _ hx)
      exact ⟨t :: txs, by simp [ht, htxs]⟩

/-- Facts about one block read that hold for every failure schedule: memory
and schedule are untouched, exactly one blockRead transaction is traced, and
the result is either the full count or an error produced by the schedule. -/
theorem br_facts (s : DrvState) (reg cnt : Nat) :
    (i2c_smbus_read_i2c_block_data_or_emulated s reg cnt).2.2.bus.mem = s.bus.mem ∧
    (i2c_smbus_read_i2c_block_data_or_emulated s reg cnt).2.2.bus.sched = s.bus.sched ∧
    (i2c_smbus_read_i2c_block_data_or_emulated s reg cnt).2.2.trace =
      s.trace ++ [BusEvent.tx (BusTx.blockRead reg cnt)] ∧
    ((i2c_smbus_read_i2c_block_data_or_emulated s reg cnt).1 = (cnt : Int) ∨
      ∃ e, s.bus.sched s.bus.txIdx = some e ∧
        (i2c_smbus_read_i2c_block_data_or_emulated s reg cnt).1 = e) := by
  cases h : s.bus.sched s.bus.txIdx with
  | none => simp [i2c_smbus_read_i2c_block_data_or_emulated, h]
  | some e =>
      refine ⟨?_, ?_, ?_, Or.inr ⟨e, rfl, ?_⟩⟩ <;>
        simp [i2c_smbus_read_i2c_block_data_or_emulated, h]

/-- Facts about spd5118_set_current_page that hold for every failure
schedule: memory and schedule are untouched, the trace grows only by bus
transactions (all trivially inside the page window), and the result is 0 or
a negative error produced by the schedule. -/
theorem scp_facts (s : DrvState) (page : Nat) :
    (spd5118_set_current_page s page).2.bus.mem = s.bus.mem ∧
    (spd5118_set_current_page s page).2.bus.sched = s.bus.sched ∧
    (∃ evs, (spd5118_set_current_page s page).2.trace = s.trace ++ evs ∧
      ∀ ev ∈ evs, txInPage ev ∧ ∃ t, ev = BusEvent.tx t) ∧
    ((spd5118_set_current_page s page).1 = 0 ∨
      ((spd5118_set_current_page s page).1 < 0 ∧
        ∃ i e, s.bus.sched i = some e ∧ (spd5118_set_current_page s page).1 = e)) := by
  by_cases hp : (page : Int) = s.data.current_page
  · refine ⟨?_, ?_, ⟨[], ?_, ?_⟩, Or.inl ?_⟩ <;> simp [spd5118_set_current_page, hp]
  · cases h : s.bus.sched s.bus.txIdx with
    | none =>
        refine ⟨?_, ?_, ⟨[BusEvent.tx (BusTx.writeByte SPD5118_REG_I2C_LEGACY_MODE page)],
          ?_, ?_⟩, Or.inl ?_⟩ <;>
          simp [spd5118_set_current_page, hp, i2c_smbus_write_byte_data, h, txInPage]
    | some e =>
        by_cases he : e < 0
        · refine ⟨?_, ?_, ⟨[BusEvent.tx (BusTx.writeByte SPD5118_REG_I2C_LEGACY_MODE page)],
            ?_, ?_⟩, Or.inr ⟨?_, s.bus.txIdx, e, h, ?_⟩⟩ <;>
            simp [spd5118_set_current_page, hp, i2c_smbus_write_byte_data, h, he, txInPage]
        · refine ⟨?_, ?_, ⟨[BusEvent.tx (BusTx.writeByte SPD5118_REG_I2C_LEGACY_MODE page)],
            ?_, ?_⟩, Or.inl ?_⟩ <;>
            simp [spd5118_set_current_page, hp, i2c_smbus_write_byte_data, h, he, txInPage]

/-- Per-call facts about one spd5118_eeprom_read chunk that hold for every
failure schedule: memory and schedule are untouched, the trace grows only by
bus transactions all of whose block reads stay inside the page window, and a
negative return value is an error produced by the schedule. -/
theorem chunk_props (s : DrvState) (off count : Nat) :
    (spd5118_eeprom_read s off count).2.2.bus.mem = s.bus.mem ∧
    (spd5118_eeprom_read s off count).2.2.bus.sched = s.bus.sched ∧
    (∃ evs, (spd5118_eeprom_read s off count).2.2.trace = s.trace ++ evs ∧
      ∀ ev ∈ evs, txInPage ev ∧ ∃ t, ev = BusEvent.tx t) ∧
    ((spd5118_eeprom_read s off count).1 < 0 →
      ∃ i e, s.bus.sched i = some e ∧ (spd5118_eeprom_read s off count).1 = e) := by
  obtain ⟨hm1, hs1, ⟨evs1, htr1, hevs1⟩, hret1⟩ := scp_facts s (off >>> SPD5118_PAGE_SHIFT)
  by_cases h0 : (spd5118_set_current_page s (off >>> SPD5118_PAGE_SHIFT)).1 = 0
  · have hred : spd5118_eeprom_read s off count =
        i2c_smbus_read_i2c_block_data_or_emulated
          (spd5118_set_current_page s (off >>> SPD5118_PAGE_SHIFT)).2
          (SPD5118_EEPROM_BASE + (off &&& ((1 <<< SPD5118_PAGE_SHIFT) - 1)))
          (if (off &&& ((1 <<< SPD5118_PAGE_SHIFT) - 1)) + count > SPD5118_PAGE_SIZE
            then SPD5118_PAGE_SIZE - (off &&& ((1 <<< SPD5118_PAGE_SHIFT) - 1)) else count) := by
      simp [spd5118_eeprom_read, h0]
    obtain ⟨hm2, hs2, htr2, hret2⟩ := br_facts
      (spd5118_set_current_page s (off >>> SPD5118_PAGE_SHIFT)).2
      (SPD5118_EEPROM_BASE + (off &&& ((1 <<< SPD5118_PAGE_SHIFT) - 1)))
      (if (off &&& ((1 <<< SPD5118_PAGE_SHIFT) - 1)) + count > SPD5118_PAGE_SIZE
        then SPD5118_PAGE_SIZE - (off &&& ((1 <<< SPD5118_PAGE_SHIFT) - 1)) else count)
    rw [hred]
    have h127 : (1 <<< SPD5118_PAGE_SHIFT) - 1 = 127 := rfl
    have hmod := and_mask_127 off
    have hlt : off % 128 < 128 := Nat.mod_lt _ (by norm_num)
    refine ⟨hm2.trans hm1, hs2.trans hs1, ⟨evs1 ++
      [BusEvent.tx (BusTx.blockRead
        (SPD5118_EEPROM_BASE + (off &&& ((1 <<< SPD5118_PAGE_SHIFT) - 1)))
        (if (off &&& ((1 <<< SPD5118_PAGE_SHIFT) - 1)) + count > SPD5118_PAGE_SIZE
          then SPD5118_PAGE_SIZE - (off &&& ((1 <<< SPD5118_PAGE_SHIFT) - 1)) else count))],
      ?_, ?_⟩, ?_⟩
    · rw [htr2, htr1, List.append_assoc]
    · intro ev hev
      rcases List.mem_append.mp hev with h | h
      · exact hevs1 ev h
      · have hev2 : ev = BusEvent.tx (BusTx.blockRead
            (SPD5118_EEPROM_BASE + (off &&& ((1 <<< SPD5118_PAGE_SHIFT) - 1)))
            (if (off &&& ((1 <<< SPD5118_PAGE_SHIFT) - 1)) + count > SPD5118_PAGE_SIZE
              then SPD5118_PAGE_SIZE - (off &&& ((1 <<< SPD5118_PAGE_SHIFT) - 1)) else count)) := by
          simpa using h
        subst hev2
        refine ⟨?_, ⟨_, rfl⟩⟩
        simp only [txInPage, h127, hmod, SPD5118_EEPROM_BASE, SPD5118_PAGE_SIZE]
        constructor
        · omega
        · split <;> omega
    · intro hneg
      rcases hret2 with h | ⟨e, hi, heq⟩
      · rw [h] at hneg
        exact absurd hneg (by omega)
      · rw [hs1] at hi
        exact ⟨_, e, hi, heq⟩
  · have hred : spd5118_eeprom_read s off count =
        ((spd5118_set_current_page s (off >>> SPD5118_PAGE_SHIFT)).1, [],
         (spd5118_set_current_page s (off >>> SPD5118_PAGE_SHIFT)).2) := by
      simp [spd5118_eeprom_read, h0]
    rw [hred]
    refine ⟨hm1, hs1, ⟨evs1, htr1, hevs1⟩, ?_⟩
    intro hneg
    rcases hret1 with h | ⟨_, i, e, hi, heq⟩
    · exact absurd h h0
    · exact ⟨i, e, hi, heq⟩

/-- Success-path behaviour of one spd5118_eeprom_read chunk: with a
fault-free transport and a synchronized (or unknown) cached page, the chunk
returns the page-clamped count, the bytes of the flat memory at the chunk's
range, and leaves the cached page synchronized. -/
theorem chunk_success (s : DrvState) (off count : Nat)
    (hnf : NoFail s.bus.sched) (hsync : PageSync s) :
    (spd5118_eeprom_read s off count).1 =
      ((if 128 < off % 128 + count then 128 - off % 128 else count : Nat) : Int) ∧
    (spd5118_eeprom_read s off count).2.1 =
      (List.range (if 128 < off % 128 + count then 128 - off % 128 else count)).map
        (fun i => s.bus.mem (off + i)) ∧
    PageSync (spd5118_eeprom_read s off count).2.2 := by
  have hmod := and_mask_127 off
  have hpage7 : off >>> SPD5118_PAGE_SHIFT = off / 128 := shiftRight7_eq off
  have hlt : off % 128 < 128 := Nat.mod_lt _ (by norm_num)
  have hnf' : ∀ i, s.bus.sched i = none := hnf
  have h127 : (1 <<< SPD5118_PAGE_SHIFT) - 1 = 127 := rfl
  by_cases hp : ((off >>> SPD5118_PAGE_SHIFT : Nat) : Int) = s.data.current_page
  · have hpage_eq : off / 128 = s.bus.page := by
      rcases hsync with h | h
      · rw [h, hpage7] at hp
        omega
      · rw [h, hpage7] at hp
        exact_mod_cast hp
    refine ⟨?_, ?_, ?_⟩
    · simp [spd5118_eeprom_read, spd5118_set_current_page, hp, hnf', h127,
        i2c_smbus_read_i2c_block_data_or_emulated, hmod, SPD5118_PAGE_SIZE]
    · simp [spd5118_eeprom_read, spd5118_set_current_page, hp, hnf', h127,
        i2c_smbus_read_i2c_block_data_or_emulated, hmod, SPD5118_PAGE_SIZE,
        SPD5118_EEPROM_BASE]
      intro a ha
      rcases lt_or_le 128 (off % 128 + count) with hcc | hcc
      · rw [if_pos hcc] at ha
        congr 1
        rw [← hpage_eq]
        omega
      · rw [if_neg (not_lt.mpr hcc)] at ha
        congr 1
        rw [← hpage_eq]
        omega
    · simp [spd5118_eeprom_read, spd5118_set_current_page, hp, hnf', h127,
        i2c_smbus_read_i2c_block_data_or_emulated, PageSync]
      simpa [PageSync] using hsync
  · refine ⟨?_, ?_, ?_⟩
    · simp [spd5118_eeprom_read, spd5118_set_current_page, hp, hnf', h127,
        i2c_smbus_write_byte_data, i2c_smbus_read_i2c_block_data_or_emulated,
        hmod, SPD5118_PAGE_SIZE]
    · simp [spd5118_eeprom_read, spd5118_set_current_page, hp, hnf', h127,
        i2c_smbus_write_byte_data, i2c_smbus_read_i2c_block_data_or_emulated,
        hmod, SPD5118_PAGE_SIZE, SPD5118_EEPROM_BASE]
      intro a ha
      rw [hpage7]
      rcases lt_or_le 128 (off % 128 + count) with hcc | hcc
      · rw [if_pos hcc] at ha
        congr 1
        omega
      · rw [if_neg (not_lt.mpr hcc)] at ha
        congr 1
        omega
    · simp [spd5118_eeprom_read, spd5118_set_current_page, hp, hnf', h127,
        i2c_smbus_write_byte_data, i2c_smbus_read_i2c_block_data_or_emulated,
        PageSync]

/-- Facts about the eeprom_read loop that hold for every failure schedule:
the trace grows only by bus transactions whose block reads stay inside the
page window, a negative result is an error produced by the schedule, and a
nonnegative result is 0. -/
theorem loop_facts : ∀ (fuel : Nat) (s : DrvState) (off count : Nat) (acc : List Nat),
    (∃ evs, (eeprom_read_loop s off count fuel acc).2.2.trace = s.trace ++ evs ∧
      ∀ ev ∈ evs, txInPage ev ∧ ∃ t, ev = BusEvent.tx t) ∧
    ((eeprom_read_loop s off count fuel acc).1 < 0 →
      ∃ i e, s.bus.sched i = some e ∧ (eeprom_read_loop s off count fuel acc).1 = e) ∧
    (0 ≤ (eeprom_read_loop s off count fuel acc).1 →
      (eeprom_read_loop s off count fuel acc).1 = 0) := by
  intro fuel
  induction fuel with
  | zero =>
      intro s off count acc
      refine ⟨⟨[], by simp [eeprom_read_loop], by simp⟩, ?_, ?_⟩ <;>
        simp [eeprom_read_loop]
  | succ fuel ih =>
      intro s off count acc
      by_cases h0 : count = 0
      · subst h0
        refine ⟨⟨[], by simp [eeprom_read_loop], by simp⟩, ?_, ?_⟩ <;>
          simp [eeprom_read_loop]
      · obtain ⟨hmem, hsched, ⟨evs1, htr1, hevs1⟩, herr1⟩ := chunk_props s off count
        by_cases hneg : (spd5118_eeprom_read s off count).1 < 0
        · have hred : eeprom_read_loop s off count (fuel + 1) acc =
              ((spd5118_eeprom_read s off count).1, acc,
               (spd5118_eeprom_read s off count).2.2) := by
            simp [eeprom_read_loop, h0, hneg]
          rw [hred]
          exact ⟨⟨evs1, htr1, hevs1⟩, fun hn => herr1 hn, fun hge => absurd hneg (by omega)⟩
        · have hred : eeprom_read_loop s off count (fuel + 1) acc =
              eeprom_read_loop (spd5118_eeprom_read s off count).2.2
                (off + (spd5118_eeprom_read s off count).1.toNat)
                (count - (spd5118_eeprom_read s off count).1.toNat) fuel
                (acc ++ (spd5118_eeprom_read s off count).2.1) := by
            simp [eeprom_read_loop, h0, hneg]
          rw [hred]
          obtain ⟨⟨evs2, htr2, hevs2⟩, herr2, hz2⟩ := ih (spd5118_eeprom_read s off count).2.2
            (off + (spd5118_eeprom_read s off count).1.toNat)
            (count - (spd5118_eeprom_read s off count).1.toNat)
            (acc ++ (spd5118_eeprom_read s off count).2.1)
          refine ⟨⟨evs1 ++ evs2, ?_, ?_⟩, ?_, hz2⟩
          · rw [htr2, htr1, List.append_assoc]
          · intro ev hev
            rcases List.mem_append.mp hev with h | h
            · exact hevs1 ev h
            · exact hevs2 ev h
          · intro hn
            obtain ⟨i, e, hi, heq⟩ := herr2 hn
            rw [hsched] at hi
            exact ⟨i, e, hi, heq⟩

/-- Success-path behaviour of the eeprom_read loop: with enough fuel, a
fault-free transport and a synchronized (or unknown) cached page, the loop
returns 0 and accumulates exactly the flat memory content of the requested
range. -/
theorem loop_success : ∀ (fuel : Nat) (s : DrvState) (off count : Nat) (acc : List Nat),
    count ≤ fuel → NoFail s.bus.sched → PageSync s →
    (eeprom_read_loop s off count fuel acc).1 = 0 ∧
    (eeprom_read_loop s off count fuel acc).2.1 =
      acc ++ (List.range count).map (fun i => s.bus.mem (off + i)) := by
  intro fuel
  induction fuel with
  | zero =>
      intro s off count acc hc _ _
      have h0 : count = 0 := Nat.le_zero.mp hc
      subst h0
      simp [eeprom_read_loop]
  | succ fuel ih =>
      intro s off count acc hc hnf hsync
      by_cases h0 : count = 0
      · subst h0
        simp [eeprom_read_loop]
      · obtain ⟨hret, hbytes, hsync'⟩ := chunk_success s off count hnf hsync
        obtain ⟨hmem, hsched, _, _⟩ := chunk_props s off count
        set c := if 128 < off % 128 + count then 128 - off % 128 else count with hc_def
        have hmlt : off % 128 < 128 := Nat.mod_lt _ (by norm_num)
        have hcpos : 0 < c := by
          rw [hc_def]
          split <;> omega
        have hcle : c ≤ count := by
          rw [hc_def]
          split <;> omega
        have hneg : ¬((spd5118_eeprom_read s off count).1 < 0) := by
          rw [hret]
          omega
        have hred : eeprom_read_loop s off count (fuel + 1) acc =
            eeprom_read_loop (spd5118_eeprom_read s off count).2.2
              (off + (spd5118_eeprom_read s off count).1.toNat)
              (count - (spd5118_eeprom_read s off count).1.toNat) fuel
              (acc ++ (spd5118_eeprom_read s off count).2.1) := by
          simp [eeprom_read_loop, h0, hneg]
        have htoNat : (spd5118_eeprom_read s off count).1.toNat = c := by
          rw [hret]
          simp
        have hnf2 : NoFail (spd5118_eeprom_read s off count).2.2.bus.sched := by
          rw [hsched]
          exact hnf
        rw [hred, htoNat, hbytes]
        obtain ⟨hz, hby⟩ := ih (spd5118_eeprom_read s off count).2.2 (off + c) (count - c)
          (acc ++ (List.range c).map fun i => s.bus.mem (off + i))
          (by omega) hnf2 hsync'
        refine ⟨hz, ?_⟩
        rw [hby, hmem, List.append_assoc]
        congr 1
        have hsplit : (List.range count).map (fun i => s.bus.mem (off + i)) =
            (List.range c).map (fun i => s.bus.mem (off + i)) ++
            (List.range (count - c)).map (fun i => s.bus.mem (off + (c + i))) := by
          conv_lhs => rw [show count = c + (count - c) from (Nat.add_sub_cancel' hcle).symm]
          rw [List.range_add, List.map_append, List.map_map]
          rfl
        rw [hsplit]
        congr 1
        apply List.map_congr_left
        intro a _
        rw [Nat.add_assoc]

/- ===================== C3 ================================================ -/

/-- C3: the bulk EEPROM read.  For any request, every block read in the trace
stays inside the 128-byte page window (per-chunk counts are clamped to the
page end); a nonnegative result is the full requested count (never a partial
count); a negative result is a transport error produced by the failure
schedule (all-or-nothing); and with a fault-free transport the call returns
the requested count and exactly the flat memory content at
[offset, offset+count). -/
theorem eeprom_read_correct (s : DrvState) (off count : Nat)
    (_hrange : off + count ≤ 1024) (hsync : PageSync s) (_herr : SchedErrs s.bus.sched) :
    (∃ new, (eeprom_read s off count).2.2.trace = s.trace ++ new ∧
      ∀ ev ∈ new, txInPage ev) ∧
    (0 ≤ (eeprom_read s off count).1 → (eeprom_read s off count).1 = (count : Int)) ∧
    ((eeprom_read s off count).1 < 0 →
      ∃ i e, s.bus.sched i = some e ∧ (eeprom_read s off count).1 = e) ∧
    (NoFail s.bus.sched →
      (eeprom_read s off count).1 = (count : Int) ∧
      (eeprom_read s off count).2.1 =
        (List.range count).map (fun i => s.bus.mem (off + i))) := by
  have e1 : (eeprom_read s off count).1 =
      if (eeprom_read_loop { s with trace := s.trace ++ [BusEvent.lock] } off count count []).1 < 0
      then (eeprom_read_loop { s with trace := s.trace ++ [BusEvent.lock] } off count count []).1
      else (count : Int) := rfl
  have e2 : (eeprom_read s off count).2.1 =
      (eeprom_read_loop { s with trace := s.trace ++ [BusEvent.lock] } off count count []).2.1 := rfl
  have e3 : (eeprom_read s off count).2.2.trace =
      (eeprom_read_loop { s with trace :=
        s.trace ++ [BusEvent.lock] } off count count []).2.2.trace ++ [BusEvent.unlock] := rfl
  obtain ⟨⟨evs, htr, hevs⟩, herr2, -⟩ :=
    loop_facts count { s with trace := s.trace ++ [BusEvent.lock] } off count []
  refine ⟨⟨BusEvent.lock :: (evs ++ [BusEvent.unlock]), ?_, ?_⟩, ?_, ?_, ?_⟩
  · rw [e3, htr]
    simp
  · intro ev hev
    rcases List.mem_cons.mp hev with h | h
    · subst h
      trivial
    · rcases List.mem_append.mp h with h2 | h2
      · exact (hevs ev h2).1
      · have hu : ev = BusEvent.unlock := by simpa using h2
        subst hu
        trivial
  · intro hge
    rw [e1] at hge ⊢
    by_cases hneg :
        (eeprom_read_loop { s with trace := s.trace ++ [BusEvent.lock] } off count count []).1 < 0
    · rw [if_pos hneg] at hge
      omega
    · rw [if_neg hneg]
  · intro hlt
    rw [e1] at hlt ⊢
    by_cases hneg :
        (eeprom_read_loop { s with trace := s.trace ++ [BusEvent.lock] } off count count []).1 < 0
    · rw [if_pos hneg] at hlt ⊢
      exact herr2 hneg
    · rw [if_neg hneg] at hlt
      omega
  · intro hnf
    obtain ⟨hz0, hby⟩ := loop_success count
      { s with trace := s.trace ++ [BusEvent.lock] } off count [] le_rfl hnf hsync
    constructor
    · rw [e1, hz0]
      norm_num
    · rw [e2, hby]
      simp

/-- Witness for C3: a 60-byte read at offset 100 (crossing the page-0/page-1
boundary) on the fault-free demo device. -/
theorem eeprom_read_correct_witness :
    100 + 60 ≤ 1024 ∧ PageSync demoState ∧ SchedErrs demoState.bus.sched ∧
    ((∃ new, (eeprom_read demoState 100 60).2.2.trace = demoState.trace ++ new ∧
        ∀ ev ∈ new, txInPage ev) ∧
      (0 ≤ (eeprom_read demoState 100 60).1 →
        (eeprom_read demoState 100 60).1 = (60 : Int)) ∧
      ((eeprom_read demoState 100 60).1 < 0 →
        ∃ i e, demoState.bus.sched i = some e ∧ (eeprom_read demoState 100 60).1 = e) ∧
      (NoFail demoState.bus.sched →
        (eeprom_read demoState 100 60).1 = (60 : Int) ∧
        (eeprom_read demoState 100 60).2.1 =
          (List.range 60).map (fun i => demoState.bus.mem (100 + i)))) :=
  by
  have hps : PageSync demoState := Or.inl rfl
  have hse : SchedErrs demoState.bus.sched := by
    intro i e h
    simp [demoState, demoBus] at h
  exact ⟨by norm_num, hps, hse, eeprom_read_correct demoState 100 60 (by norm_num) hps hse⟩

/- ===================== C9 ================================================ -/

/-- C9: every bus-touching operation (temperature read/write, alarm
read/clear, and the page-select + page-window EEPROM read) brackets all its
bus transactions in exactly one mutex acquire/release pair on every
execution path, including transport-error paths; paths that fail before
touching the bus leave the trace unchanged.  Since every transaction of a
call sits strictly between its lock and unlock, two calls serialized by the
per-device mutex can never interleave their bus transactions (in particular
a temperature-register read can never fall between another call's
page-select write and block read). -/
theorem spd5118_lock_bracketing (p : ModuleParams) (s : DrvState)
    (attr : HwmonTempAttr) (val : Int) (off count : Nat) :
    LockBracketed s.trace (spd5118_read_temp s attr).2.2.trace ∧
    LockBracketed s.trace (spd5118_write_temp p s attr val).2.trace ∧
    LockBracketed s.trace (spd5118_read_alarm s attr).2.2.trace ∧
    LockBracketed s.trace (spd5118_clear_alarm p s attr).2.trace ∧
    LockBracketed s.trace (eeprom_read s off count).2.2.trace := by
  refine ⟨?_, ?_, ?_, ?_, ?_⟩
  · cases hreg : readTempReg attr with
    | none => exact Or.inl (by simp [spd5118_read_temp, hreg])
    | some reg =>
        right
        refine ⟨[BusTx.readWord reg], ?_⟩
        cases hs : s.bus.sched s.bus.txIdx <;>
          simp [spd5118_read_temp, hreg, i2c_smbus_read_word_data, hs,
            apply_ite (fun t : Int × Int × DrvState => t.2.2.trace)]
  · by_cases hw : p.enable_temp_write
    · cases hreg : writeTempReg attr with
      | none => exact Or.inl (by simp [spd5118_write_temp, hw, hreg])
      | some reg =>
          right
          refine ⟨[BusTx.writeWord reg (spd5118_temp_to_reg (int_of_long val))], ?_⟩
          cases hs : s.bus.sched s.bus.txIdx <;>
            simp [spd5118_write_temp, hw, hreg, i2c_smbus_write_word_data, hs]
    · exact Or.inl (by simp [spd5118_write_temp, hw])
  · cases hreg : alarmStatusMask attr with
    | none => exact Or.inl (by simp [spd5118_read_alarm, hreg])
    | some mask =>
        right
        refine ⟨[BusTx.readByte SPD5118_REG_TEMP_STATUS], ?_⟩
        cases hs : s.bus.sched s.bus.txIdx <;>
          simp [spd5118_read_alarm, hreg, i2c_smbus_read_byte_data, hs,
            apply_ite (fun t : Int × Int × DrvState => t.2.2.trace)]
  · by_cases hw : p.enable_alarm_write
    · cases hreg : alarmClrBit attr with
      | none => exact Or.inl (by simp [spd5118_clear_alarm, hw, hreg])
      | some b =>
          right
          refine ⟨[BusTx.writeByte SPD5118_REG_TEMP_CLR b], ?_⟩
          cases hs : s.bus.sched s.bus.txIdx <;>
            simp [spd5118_clear_alarm, hw, hreg, i2c_smbus_write_byte_data, hs]
    · exact Or.inl (by simp [spd5118_clear_alarm, hw])
  · obtain ⟨⟨evs, htr, hevs⟩, -, -⟩ :=
      loop_facts count { s with trace := s.trace ++ [BusEvent.lock] } off count []
    obtain ⟨txs, htxs⟩ := events_all_tx evs (fun ev hev => (hevs ev hev).2)
    right
    refine ⟨txs, ?_⟩
    have e3 : (eeprom_read s off count).2.2.trace =
        (eeprom_read_loop { s with trace :=
          s.trace ++ [BusEvent.lock] } off count count []).2.2.trace ++ [BusEvent.unlock] := rfl
    rw [e3, htr, htxs]
